import Mathlib

/-
  Verification development for `podcast_generator/produce_podcast.py`.

  The script parses a podcast script file (JSON array or markdown text) into
  segments, loads voice-reference samples, synthesizes one audio file per
  segment through an external TTS backend, and writes a machine-readable
  run report.  Below is a shallow embedding of those functions:

  * file-system reads are explicit parameters (`FileRead`, the optional
    contents of the two voice-sample files);
  * the external JSON library call `json.loads` is abstracted by the
    `ScriptContent` classification of the file text (a top-level JSON
    array of elements, or anything else - malformed JSON as well as a
    JSON value that is not a list both take the markdown path, exactly
    as the inner `except (json.JSONDecodeError, ValueError)` does);
  * JSON field values that the code actually inspects are strings or
    `null` (`JVal`); a Python `None` arising from an explicit `null` is
    modelled as `Option.none` on the extracted field;
  * `sys.exit(1)` / an exception escaping to the outer handler is
    `Except.error ()`;
  * `time.time()` is the explicit parameter `now`;
  * the TTS backend together with the file write of one segment is the
    oracle `synthOk : Nat → Bool` (segment index ↦ success), mirroring
    `generate_audio`, which returns a boolean and never raises.
-/

namespace Podcast

/-- Decidable equality on `Except`, so that concrete runs of the embedded
functions can be checked by evaluation. -/
instance instDecEqExcept {ε α : Type} [DecidableEq ε] [DecidableEq α] :
    DecidableEq (Except ε α) := fun x y =>
  match x, y with
  | .ok a, .ok b =>
    if h : a = b then isTrue (by rw [h]) else isFalse (by simp [h])
  | .error a, .error b =>
    if h : a = b then isTrue (by rw [h]) else isFalse (by simp [h])
  | .ok _, .error _ => isFalse (by simp)
  | .error _, .ok _ => isFalse (by simp)

/-- Python truthiness for `x or d` where `x` is an optional string
(`None` and `""` are falsy): used for `arxiv_id_override or f'unknown_{idx}'`
and for `if not arxiv_id_override`. -/
def pyOrStr (o : Option String) (d : String) : String :=
  match o with
  | some s => if s == "" then d else s
  | none => d

/-- Python truthiness for `a or b` on two optional strings: used for
`channel_id or args.channel_id` in `main`. -/
def pyOrOpt (a b : Option String) : Option String :=
  match a with
  | some s => if s == "" then b else some s
  | none => b

/-- Python `str(x)` of an optional string inside an f-string
(`f"{arxiv_id}.mp3"`): `None` prints as `"None"`. -/
def pyShow : Option String → String
  | some s => s
  | none => "None"

/-- Python `s.replace(a, b)` restricted to a single-character pattern and
replacement, which is the only way the source uses it
(`title.replace(' ', '_')` and `group(1).replace(' ', '-')`). -/
def replaceChar (a b : Char) (s : String) : String :=
  String.mk (s.data.map fun c => if c == a then b else c)

/-- Python `s[:n]` (slicing counts code points). -/
def strTake (s : String) (n : Nat) : String :=
  String.mk (s.data.take n)

/-- Python `s.startswith(p)`. -/
def pyStartsWith (s p : String) : Bool :=
  p.data.isPrefixOf s.data

/-- Python `s.strip()`: drop leading and trailing whitespace.  (Python
strips all Unicode whitespace; the sources at issue only carry ASCII
whitespace, which `Char.isWhitespace` covers.) -/
def pyStrip (s : String) : String :=
  String.mk (((s.data.dropWhile Char.isWhitespace).reverse.dropWhile
    Char.isWhitespace).reverse)

/-- A JSON field value the code inspects: a string or an explicit `null`.
(Other JSON types in field position are outside this model; the claims
only concern strings, absence and `null`.) -/
inductive JVal where
  | s (v : String)
  | null
deriving DecidableEq, Repr

/-- Python `item.get(key, default)` where the default is a string: a present
string passes through, a present `null` yields Python `None`, an absent key
yields the default. -/
def jget (field : Option JVal) (d : String) : Option String :=
  match field with
  | some (.s v) => some v
  | some .null => none
  | none => some d

/-- One element of a top-level JSON array, as the code distinguishes them:
a dict (only the four keys the code reads are modelled; further keys are
ignored by the code), a string, or anything else (which raises
`ValueError` at line 207). -/
inductive JItem where
  | obj (title script arxiv_id channel_id : Option JVal)
  | str (v : String)
  | other
deriving DecidableEq, Repr

/-- Classification of the stripped file text by `json.loads`: a top-level
JSON array, or anything else (malformed JSON, or a JSON value that is not
a list - both raise into the inner handler and take the markdown path).
The empty string is not valid JSON, so an empty file is `nonJson ""`. -/
inductive ScriptContent where
  | jsonArray (items : List JItem)
  | nonJson (text : String)
deriving DecidableEq, Repr

/-- Outcome of locating and reading the script file: `missing` is
`os.path.exists` returning false (line 135), `unreadable` is `open`/`read`
raising inside the try block, `readAs c` is a successful read whose
stripped text classifies as `c`. -/
inductive FileRead where
  | missing
  | unreadable
  | readAs (c : ScriptContent)
deriving DecidableEq, Repr

/-- One parsed segment. Fields are `Option String` because an explicit
JSON `null` puts a Python `None` into the dict the parser appends
(`title`/`script`/`channel_id` can be `None`; the parser itself guarantees
`arxiv_id` is a string in every segment it returns). -/
structure Segment where
  title : Option String
  script : Option String
  arxiv_id : Option String
  channel_id : Option String
deriving DecidableEq, Repr

/-- The id of a string-shaped array element (lines 191-198):
`arxiv_id_override or f'unknown_{idx}'`, overridden by the mapping's
`paper_<idx>` entry when present. -/
def strBranchId (override : Option String) (mapping : List (String × String))
    (idx : Nat) : String :=
  match mapping.lookup ("paper_" ++ toString idx) with
  | some m => m
  | none => pyOrStr override ("unknown_" ++ toString idx)

/-- The dict branch and the string branch of the JSON path
(lines 163-207), one array element at a time.  `Except.error ()` models
the exception escaping to the outer handler and aborting via
`sys.exit(1)`: `JItem.other` raises `ValueError`; `.startswith` on a
`None` `arxiv_id`, or `.replace` on a `None` `title`, raise
`AttributeError`. -/
def parseItem (override : Option String) (mapping : List (String × String))
    (idx : Nat) : JItem → Except Unit Segment
  | .obj t s a c =>
    let title := jget t ("segment_" ++ toString idx)
    let script := jget s ""
    let arxiv0 := jget a (pyOrStr override ("unknown_" ++ toString idx))
    let channel := jget c ""
    match arxiv0 with
    | none => .error ()
    | some aid =>
      if pyStartsWith aid "unknown_" || pyStartsWith aid "segment_" then
        match title with
        | none => .error ()
        | some t0 =>
          let clean := strTake (replaceChar ' ' '_' t0) 50
          let aid2 :=
            match mapping.lookup clean with
            | some v => v
            | none =>
              match mapping.lookup ("paper_" ++ toString idx) with
              | some v => v
              | none => aid
          .ok ⟨title, script, some aid2, channel⟩
      else
        .ok ⟨title, script, some aid, channel⟩
  | .str v =>
    .ok ⟨some ("segment_" ++ toString idx), some v,
         some (strBranchId override mapping idx), some ""⟩
  | .other => .error ()

/-- The JSON-path loop over the array elements, threading the index.  An
exception at any element aborts the whole parse; the partially built
`parsed_segments` list is never returned. -/
def parseItems (override : Option String) (mapping : List (String × String)) :
    Nat → List JItem → Except Unit (List Segment)
  | _, [] => .ok []
  | idx, item :: rest =>
    match parseItem override mapping idx item with
    | .error e => .error e
    | .ok seg =>
      match parseItems override mapping (idx + 1) rest with
      | .error e => .error e
      | .ok segs => .ok (seg :: segs)

/-- Characters after the last slash, with an accumulator for the current
path component. -/
def afterLastSlash : List Char → List Char → List Char
  | [], acc => acc.reverse
  | '/' :: rest, _ => afterLastSlash rest []
  | c :: rest, acc => afterLastSlash rest (c :: acc)

/-- `os.path.basename` for POSIX paths: the part after the last slash. -/
def basename (p : String) : String :=
  String.mk (afterLastSlash p.data [])

/-- Index of the last dot of a character list, if any. -/
def lastDotPos (cs : List Char) : Option Nat :=
  match cs.reverse.findIdx? (· == '.') with
  | some k => some (cs.length - 1 - k)
  | none => none

/-- The stem part of `os.path.splitext` applied to a bare filename (no
slashes): cut at the last dot, except that a name consisting of leading
dots only up to that dot has no extension. -/
def splitextStem (name : String) : String :=
  match lastDotPos name.data with
  | none => name
  | some d =>
    if (name.data.take d).any (fun c => c != '.') then String.mk (name.data.take d)
    else name

/-- One attempt of the regex `(\d{4}-\d{2}-\d{2}[- ]\d{2}-\d{2}-\d{2})` at
the head of the character list: the pattern is fixed-width (19 chars), so
a match is a positional shape check.  (Python `\d` also matches non-ASCII
digits; the model uses ASCII digits, which covers the filenames at issue.) -/
def matchTS (cs : List Char) : Option (List Char) :=
  match cs with
  | y1 :: y2 :: y3 :: y4 :: h1 :: mo1 :: mo2 :: h2 :: d1 :: d2 :: sp ::
      hh1 :: hh2 :: h3 :: mi1 :: mi2 :: h4 :: ss1 :: ss2 :: _ =>
    if y1.isDigit && y2.isDigit && y3.isDigit && y4.isDigit && h1 == '-' &&
        mo1.isDigit && mo2.isDigit && h2 == '-' && d1.isDigit && d2.isDigit &&
        (sp == '-' || sp == ' ') && hh1.isDigit && hh2.isDigit && h3 == '-' &&
        mi1.isDigit && mi2.isDigit && h4 == '-' && ss1.isDigit && ss2.isDigit then
      some [y1, y2, y3, y4, h1, mo1, mo2, h2, d1, d2, sp,
            hh1, hh2, h3, mi1, mi2, h4, ss1, ss2]
    else none
  | _ => none

/-- `re.search` for the fixed-width timestamp pattern: try every start
position from the left, first match wins. -/
def searchTS : List Char → Option (List Char)
  | [] => none
  | c :: rest =>
    match matchTS (c :: rest) with
    | some m => some m
    | none => searchTS rest

/-- `re.search(r'(\d{4}-\d{2}-\d{2}[- ]\d{2}-\d{2}-\d{2})', filename)`
followed by `.group(1)`. -/
def timestampFromFilename (filename : String) : Option String :=
  (searchTS filename.data).map String.mk

/-- The markdown-path id resolution when the override is falsy
(lines 217-228): the mapping's `paper_0` entry, else the filename
timestamp normalized to dashes, else `podcast_<unix time>`. -/
def markdownAutoId (filename : String) (mapping : List (String × String))
    (now : Nat) : String :=
  match mapping.lookup "paper_0" with
  | some v => v
  | none =>
    match timestampFromFilename filename with
    | some ts => replaceChar ' ' '-' ts
    | none => "podcast_" ++ toString now

/-- Full markdown-path id resolution: `if not arxiv_id_override:` replaces
a falsy override by `markdownAutoId`. -/
def resolveMarkdownId (filename : String) (override : Option String)
    (mapping : List (String × String)) (now : Nat) : String :=
  pyOrStr override (markdownAutoId filename mapping now)

/-- The single segment the markdown path appends (lines 230-236): title is
the basename without extension, script is the whole (stripped) file text,
channel id is empty. -/
def markdownSegment (scriptPath : String) (text : String)
    (override : Option String) (mapping : List (String × String))
    (now : Nat) : Segment :=
  { title := some (splitextStem (basename scriptPath))
    script := some text
    arxiv_id := some (resolveMarkdownId (basename scriptPath) override mapping now)
    channel_id := some "" }

/-- `parse_podcast_script` (lines 116-245).  A missing file hits the
explicit `sys.exit(1)` at line 137; a read failure raises into the outer
handler which also exits; a JSON array runs the element loop; any other
content is one markdown segment. -/
def parse_podcast_script (scriptPath : String) (file : FileRead)
    (override : Option String) (mapping : List (String × String))
    (now : Nat) : Except Unit (List Segment) :=
  match file with
  | .missing => .error ()
  | .unreadable => .error ()
  | .readAs (.jsonArray items) => parseItems override mapping 0 items
  | .readAs (.nonJson text) => .ok [markdownSegment scriptPath text override mapping now]

/-- One voice reference as built by `load_voice_references`. -/
structure VoiceReference where
  audio : String
  text : String
deriving DecidableEq, Repr

/-- Fixed transcript paired with the female voice sample (line 66). -/
def femaleTranscript : String :=
  "周一到周五，每天早晨七点半到九点半的直播片段。言下之意呢，就是废话有点多，大家也别嫌弃，因为这都是直播间最真实的状态了。"

/-- Fixed transcript paired with the male voice sample (line 78). -/
def maleTranscript : String :=
  "就现在的影片结尾是这个凯瑟琳和杰西卡一番折腾以后呢，那个网红的摄像机碎了，然后两个人要消失了。然后杰西卡说：这下大家都要消失，你高兴了吧。"

/-- `load_voice_references` (lines 55-87).  The two inputs are the
optional TEXT contents of `female_base64.txt` and `male_base64.txt`
(`none` = file does not exist, skipped with a warning).  The code reads
each file as text, strips it, and splices it verbatim after the data-URI
prefix; an empty resulting list is `sys.exit(1)` (line 85). -/
def load_voice_references (femaleFile maleFile : Option String) :
    Except Unit (List VoiceReference) :=
  let refs :=
    (match femaleFile with
     | some c => [⟨"data:audio/mpeg;base64," ++ pyStrip c, femaleTranscript⟩]
     | none => []) ++
    (match maleFile with
     | some c => [⟨"data:audio/mpeg;base64," ++ pyStrip c, maleTranscript⟩]
     | none => [])
  if refs.isEmpty then .error () else .ok refs

/-- Modelled from the spec: standard base64 encoding of a byte sequence,
which the spec (§4.1) says the Reference Loader performs on the raw audio
bytes.  No function in `src/` performs this encoding - the loader splices
pre-encoded text - so this definition exists only to compare the spec's
description with the code. -/
def base64Alphabet : List Char :=
  "ABCDEFGHIJKLMNOPQRSTUVWXYZabcdefghijklmnopqrstuvwxyz0123456789+/".data

/-- Modelled from the spec: the base64 character for a 6-bit value. -/
def b64Char (n : Nat) : Char :=
  base64Alphabet.getD n 'A'

/-- Modelled from the spec: base64 of a byte list, three bytes to four
output characters, with `=` padding. -/
def base64Encode : List Nat → List Char
  | [] => []
  | [b1] =>
    [b64Char (b1 / 4 % 64), b64Char (b1 % 4 * 16), '=', '=']
  | [b1, b2] =>
    [b64Char (b1 / 4 % 64), b64Char (b1 % 4 * 16 + b2 / 16 % 16),
     b64Char (b2 % 16 * 4), '=']
  | b1 :: b2 :: b3 :: rest =>
    b64Char (b1 / 4 % 64) :: b64Char (b1 % 4 * 16 + b2 / 16 % 16) ::
    b64Char (b2 % 16 * 4 + b3 / 64 % 4) :: b64Char (b3 % 64) ::
    base64Encode rest

/-- One entry of the `files` list in the run report (lines 363-367). -/
structure GenOutcome where
  local_path : String
  arxiv_id : Option String
  channel_id : Option String
deriving DecidableEq, Repr

/-- The dict appended to `generated_files` for a successful segment:
`local_path` is `<output_dir>/<arxiv_id>.mp3` (a `None` id prints as
`"None"` in the f-string), `channel_id` is the segment's if truthy, else
the run-wide `--channel-id` argument. -/
def mkOutcome (outputDir : String) (defaultChannel : Option String)
    (seg : Segment) : GenOutcome :=
  { local_path := outputDir ++ "/" ++ pyShow seg.arxiv_id ++ ".mp3"
    arxiv_id := seg.arxiv_id
    channel_id := pyOrOpt seg.channel_id defaultChannel }

/-- The run report persisted to `audio_generation_result.json`
(`elapsed_time`, a wall-clock float, is not modelled). -/
structure RunReport where
  success : Nat
  failed : Nat
  files : List GenOutcome
deriving DecidableEq, Repr

/-- The per-segment loop of `main` (lines 345-372) from index `idx` on:
each segment is attempted exactly once via `generate_audio` (the oracle
`synthOk`); a success bumps `success_count` and appends an outcome, a
failure bumps `failed_count` and the loop continues.  Stated as a
structural recursion producing the same counts and the same ordered
`files` list as the forward accumulation in the code. -/
def processFrom (outputDir : String) (defaultChannel : Option String)
    (synthOk : Nat → Bool) : Nat → List Segment → RunReport
  | _, [] => ⟨0, 0, []⟩
  | idx, seg :: rest =>
    let r := processFrom outputDir defaultChannel synthOk (idx + 1) rest
    if synthOk idx then
      ⟨r.success + 1, r.failed, mkOutcome outputDir defaultChannel seg :: r.files⟩
    else
      ⟨r.success, r.failed + 1, r.files⟩

/-- The whole batch loop, starting at index 0. -/
def processSegments (outputDir : String) (defaultChannel : Option String)
    (synthOk : Nat → Bool) (segs : List Segment) : RunReport :=
  processFrom outputDir defaultChannel synthOk 0 segs

/-- Exit code of `main` after the loop (lines 402-403): `sys.exit(1)`
when any segment failed, otherwise fall off the end (exit 0). -/
def runExitCode (r : RunReport) : Nat :=
  if r.failed > 0 then 1 else 0

/-- `main` from the reference-loading step on (lines 323-403), with the
fatal startup paths as `Except.error`: load voice references (fatal if
none), parse the script with `arxiv_id_override=None` (fatal on
missing/unreadable file or bad JSON element), run the loop, and return
the persisted report together with the process exit code.  The report is
written to `audio_generation_result.json` before the exit-code check, for
any run that completes the loop. -/
def runMain (scriptPath : String) (file : FileRead)
    (femaleFile maleFile : Option String)
    (mapping : List (String × String)) (defaultChannel : Option String)
    (outputDir : String) (synthOk : Nat → Bool) (now : Nat) :
    Except Unit (RunReport × Nat) := do
  let _ ← load_voice_references femaleFile maleFile
  let segs ← parse_podcast_script scriptPath file none mapping now
  let r := processSegments outputDir defaultChannel synthOk segs
  .ok (r, runExitCode r)

/-- Written from the spec's words (§4.3, object branch): "If the resolved
`arxiv_id` still carries an unresolved marker (`unknown_` / `segment_`
prefix), attempt reconciliation: first by a sanitized-title key (title
with spaces replaced by underscores, truncated to 50 characters) against
the ID Mapper, else by the positional key `paper_<index>`. First match
wins; no match leaves the default." -/
def specObjResolveId (mapping : List (String × String)) (idx : Nat)
    (title resolved : String) : String :=
  if pyStartsWith resolved "unknown_" || pyStartsWith resolved "segment_" then
    match mapping.lookup (strTake (replaceChar ' ' '_' title) 50) with
    | some v => v
    | none =>
      match mapping.lookup ("paper_" ++ toString idx) with
      | some v => v
      | none => resolved
  else resolved

/-- Written from the spec's words (§4.3, markdown branch): "The identifier
is resolved in priority order: (a) caller-supplied override, (b) ID
Mapper's `paper_0` entry, (c) a timestamp pattern extracted from the
filename, normalized to dash-separated, (d) a synthesized
`podcast_<unix-timestamp>` fallback."  "Present" for the override means
Python-truthy (non-`None`, non-empty), which is how the only call site
and the code's `if not arxiv_id_override` treat it. -/
def specMarkdownAuto (filename : String) (mapping : List (String × String))
    (now : Nat) : String :=
  match mapping.lookup "paper_0" with
  | some v => v
  | none =>
    match timestampFromFilename filename with
    | some ts => replaceChar ' ' '-' ts
    | none => "podcast_" ++ toString now

/-- Written from the spec's words (§4.3, markdown branch), override case:
a present (Python-truthy) caller override takes priority over
`specMarkdownAuto`; "present" means non-`None` and non-empty, which is
how the only call site and the code's `if not arxiv_id_override` treat
it. -/
def specMarkdownId (filename : String) (override : Option String)
    (mapping : List (String × String)) (now : Nat) : String :=
  match override with
  | some o =>
    if o == "" then specMarkdownAuto filename mapping now else o
  | none => specMarkdownAuto filename mapping now

/-! ### Helper lemmas -/

theorem str_ne_empty_of_data (s : String) (h : s.data ≠ []) : s ≠ "" := by
  intro e
  rw [e] at h
  exact h rfl

theorem append_ne_empty_left (p x : String) (hp : p.data ≠ []) : p ++ x ≠ "" := by
  apply str_ne_empty_of_data
  rw [String.data_append]
  intro h
  exact hp (List.append_eq_nil.mp h).1

theorem pyOrStr_ne (o : Option String) (d : String) (hd : d ≠ "") :
    pyOrStr o d ≠ "" := by
  cases o with
  | none => simpa [pyOrStr] using hd
  | some s =>
    simp only [pyOrStr]
    by_cases hs : s = ""
    · simp [hs, hd]
    · simp [hs]

theorem lookup_val_mem : ∀ (m : List (String × String)) (k v : String),
    m.lookup k = some v → ∃ k2, (k2, v) ∈ m := by
  intro m
  induction m with
  | nil => intro k v h; simp [List.lookup] at h
  | cons p rest ih =>
    intro k v h
    obtain ⟨k1, v1⟩ := p
    simp only [List.lookup] at h
    cases hb : (k == k1) <;> rw [hb] at h
    · obtain ⟨k2, hk⟩ := ih k v h
      exact ⟨k2, List.mem_cons_of_mem _ hk⟩
    · cases h
      exact ⟨k1, List.mem_cons_self _ _⟩

/-- All values of the id mapping are non-empty strings (hypothesis used by
the amended non-empty-id invariant). -/
def mappingValsNonempty (m : List (String × String)) : Bool :=
  m.all fun p => p.2 != ""

theorem lookup_val_ne (m : List (String × String))
    (hm : mappingValsNonempty m = true) (k v : String)
    (h : m.lookup k = some v) : v ≠ "" := by
  obtain ⟨k2, hk⟩ := lookup_val_mem m k v h
  have hv := List.all_eq_true.mp hm _ hk
  simpa [bne_iff_ne] using hv

theorem matchTS_length (cs l : List Char) (h : matchTS cs = some l) :
    l.length = 19 := by
  unfold matchTS at h
  split at h
  · split at h
    · cases h; rfl
    · cases h
  · cases h

theorem searchTS_length : ∀ (cs l : List Char), searchTS cs = some l →
    l.length = 19 := by
  intro cs
  induction cs with
  | nil => intro l h; simp [searchTS] at h
  | cons c rest ih =>
    intro l h
    simp only [searchTS] at h
    cases hm : matchTS (c :: rest) <;> rw [hm] at h
    · exact ih l h
    · cases h; exact matchTS_length _ _ hm

theorem markdownAutoId_ne (f : String) (m : List (String × String)) (n : Nat)
    (hm : mappingValsNonempty m = true) : markdownAutoId f m n ≠ "" := by
  unfold markdownAutoId
  cases h0 : m.lookup "paper_0" with
  | some v => exact lookup_val_ne m hm _ v h0
  | none =>
    cases ht : timestampFromFilename f with
    | some ts =>
      apply str_ne_empty_of_data
      simp only [timestampFromFilename, Option.map_eq_some'] at ht
      obtain ⟨l, hl, rfl⟩ := ht
      have h19 := searchTS_length _ _ hl
      simp only [replaceChar]
      intro hdata
      have hlen : (l.map fun c => if c == ' ' then '-' else c).length = 0 := by
        rw [hdata]; rfl
      rw [List.length_map, h19] at hlen
      cases hlen
    | none => exact append_ne_empty_left "podcast_" _ (by decide)

theorem parseItems_length (o : Option String) (m : List (String × String)) :
    ∀ (items : List JItem) (idx : Nat) (segs : List Segment),
      parseItems o m idx items = .ok segs → segs.length = items.length := by
  intro items
  induction items with
  | nil =>
    intro idx segs h
    simp only [parseItems] at h
    cases h
    rfl
  | cons it rest ih =>
    intro idx segs h
    simp only [parseItems] at h
    cases hit : parseItem o m idx it <;> rw [hit] at h
    · cases h
    · cases hrest : parseItems o m (idx + 1) rest <;> rw [hrest] at h
      · cases h
      · cases h
        simpa using ih (idx + 1) _ hrest

theorem parseItems_other (o : Option String) (m : List (String × String)) :
    ∀ (pre : List JItem) (idx : Nat) (post : List JItem),
      parseItems o m idx (pre ++ JItem.other :: post) = .error () := by
  intro pre
  induction pre with
  | nil => intro idx post; rfl
  | cons it rest ih =>
    intro idx post
    simp only [List.cons_append, parseItems]
    cases hit : parseItem o m idx it <;> simp [ih (idx + 1)]

theorem base64Encode_length : ∀ (bs : List Nat),
    (base64Encode bs).length % 4 = 0
  | [] => by simp [base64Encode]
  | [b1] => by simp [base64Encode]
  | [b1, b2] => by simp [base64Encode]
  | b1 :: b2 :: b3 :: rest => by
    have ih := base64Encode_length rest
    simp only [base64Encode, List.length_cons]
    omega

theorem processFrom_success (dir : String) (dc : Option String)
    (ok : Nat → Bool) : ∀ (segs : List Segment) (idx : Nat),
      (processFrom dir dc ok idx segs).success =
        ((List.enumFrom idx segs).filter fun p => ok p.1).length := by
  intro segs
  induction segs with
  | nil => intro idx; rfl
  | cons s rest ih =>
    intro idx
    simp only [processFrom, List.enumFrom, List.filter_cons]
    cases h : ok idx <;> simp [h, ih (idx + 1)]

theorem processFrom_files (dir : String) (dc : Option String)
    (ok : Nat → Bool) : ∀ (segs : List Segment) (idx : Nat),
      (processFrom dir dc ok idx segs).files =
        ((List.enumFrom idx segs).filter fun p => ok p.1).map
          fun p => mkOutcome dir dc p.2 := by
  intro segs
  induction segs with
  | nil => intro idx; rfl
  | cons s rest ih =>
    intro idx
    simp only [processFrom, List.enumFrom, List.filter_cons]
    cases h : ok idx <;> simp [h, ih (idx + 1)]

theorem processFrom_sum (dir : String) (dc : Option String)
    (ok : Nat → Bool) : ∀ (segs : List Segment) (idx : Nat),
      (processFrom dir dc ok idx segs).success +
        (processFrom dir dc ok idx segs).failed = segs.length := by
  intro segs
  induction segs with
  | nil => intro idx; rfl
  | cons s rest ih =>
    intro idx
    have h2 := ih (idx + 1)
    simp only [processFrom, List.length_cons]
    cases h : ok idx <;> simp [h] <;> omega

theorem parseItem_obj_eq (o : Option String) (m : List (String × String))
    (idx : Nat) (t s a c : Option String) :
    parseItem o m idx
      (.obj (t.map JVal.s) (s.map JVal.s) (a.map JVal.s) (c.map JVal.s)) =
      .ok ⟨some (t.getD ("segment_" ++ toString idx)), some (s.getD ""),
           some (specObjResolveId m idx (t.getD ("segment_" ++ toString idx))
             (a.getD (pyOrStr o ("unknown_" ++ toString idx)))),
           some (c.getD "")⟩ := by
  cases t <;> cases s <;> cases a <;> cases c <;>
    (simp only [parseItem, jget, Option.map_none', Option.map_some',
       Option.getD_none, Option.getD_some, specObjResolveId]
     split <;> rfl)

/-- A JSON field that is absent or a string (not an explicit `null`). -/
def nullFreeField : Option JVal → Bool
  | some .null => false
  | _ => true

/-- A JSON object element all of whose tracked fields are absent or
strings. -/
def strObjItem : JItem → Bool
  | .obj t s a c =>
    nullFreeField t && nullFreeField s && nullFreeField a && nullFreeField c
  | _ => false

/-- The string content of an absent-or-string field. -/
def optStrOf : Option JVal → Option String
  | some (.s v) => some v
  | _ => none

theorem nullFree_eq_map (x : Option JVal) (h : nullFreeField x = true) :
    x = (optStrOf x).map JVal.s := by
  cases x with
  | none => rfl
  | some v =>
    cases v with
    | s w => rfl
    | null => simp [nullFreeField] at h

theorem parseItems_strObj (o : Option String) (m : List (String × String)) :
    ∀ (items : List JItem) (idx : Nat), items.all strObjItem = true →
      ∃ segs, parseItems o m idx items = .ok segs ∧
        segs.length = items.length ∧
        ∀ seg ∈ segs, seg.title.isSome ∧ seg.script.isSome ∧
          seg.arxiv_id.isSome ∧ seg.channel_id.isSome := by
  intro items
  induction items with
  | nil => intro idx _; exact ⟨[], rfl, rfl, by simp⟩
  | cons it rest ih =>
    intro idx hall
    simp only [List.all_cons, Bool.and_eq_true] at hall
    obtain ⟨segs, hsegs, hlen, hfields⟩ := ih (idx + 1) hall.2
    cases it with
    | str v => simp [strObjItem] at hall
    | other => simp [strObjItem] at hall
    | obj t s a c =>
      have hit := hall.1
      simp only [strObjItem, Bool.and_eq_true] at hit
      obtain ⟨⟨⟨ht, hs⟩, ha⟩, hc⟩ := hit
      rw [nullFree_eq_map t ht, nullFree_eq_map s hs, nullFree_eq_map a ha,
        nullFree_eq_map c hc]
      refine ⟨(⟨some ((optStrOf t).getD ("segment_" ++ toString idx)),
        some ((optStrOf s).getD ""),
        some (specObjResolveId m idx
          ((optStrOf t).getD ("segment_" ++ toString idx))
          ((optStrOf a).getD (pyOrStr o ("unknown_" ++ toString idx)))),
        some ((optStrOf c).getD "")⟩ : Segment) :: segs, ?_,
        by simp [hlen], ?_⟩
      · simp only [parseItems, parseItem_obj_eq, hsegs]
      · intro seg hseg
        rcases List.mem_cons.mp hseg with rfl | hmem
        · simp
        · exact hfields seg hmem

theorem parseItems_str_map (o : Option String) (m : List (String × String)) :
    ∀ (ss : List String) (idx : Nat),
      parseItems o m idx (ss.map JItem.str) =
        .ok ((List.enumFrom idx ss).map fun p =>
          (⟨some ("segment_" ++ toString p.1), some p.2,
            some (strBranchId o m p.1), some ""⟩ : Segment)) := by
  intro ss
  induction ss with
  | nil => intro idx; rfl
  | cons v rest ih =>
    intro idx
    simp only [List.map_cons, parseItems, parseItem, List.enumFrom,
      ih (idx + 1)]

/-- The `arxiv_id` field of an object element, when present, is not the
empty string (absence is allowed; non-object elements are
unconstrained). -/
def itemArxivNonempty : JItem → Bool
  | .obj _ _ a _ => a != some (.s "")
  | _ => true

/-- Lift of `itemArxivNonempty` to the whole script input. -/
def fileArxivOk : FileRead → Bool
  | .readAs (.jsonArray items) => items.all itemArxivNonempty
  | _ => true

theorem strBranchId_ne (o : Option String) (m : List (String × String))
    (hm : mappingValsNonempty m = true) (idx : Nat) :
    strBranchId o m idx ≠ "" := by
  unfold strBranchId
  cases hl : m.lookup ("paper_" ++ toString idx) with
  | some v => exact lookup_val_ne m hm _ v hl
  | none => exact pyOrStr_ne o _ (append_ne_empty_left "unknown_" _ (by decide))

theorem parseItem_arxiv_ne (o : Option String) (m : List (String × String))
    (hm : mappingValsNonempty m = true) (idx : Nat) (it : JItem)
    (hit : itemArxivNonempty it = true) (seg : Segment)
    (h : parseItem o m idx it = .ok seg) :
    ∃ x, seg.arxiv_id = some x ∧ x ≠ "" := by
  cases it with
  | other => cases h
  | str v =>
    simp only [parseItem] at h
    cases h
    exact ⟨_, rfl, strBranchId_ne o m hm idx⟩
  | obj t s a c =>
    have hane : ∀ aid, jget a (pyOrStr o ("unknown_" ++ toString idx)) = some aid →
        aid ≠ "" := by
      intro aid haid
      cases a with
      | none =>
        simp only [jget] at haid
        cases haid
        exact pyOrStr_ne o _ (append_ne_empty_left "unknown_" _ (by decide))
      | some av =>
        cases av with
        | null => simp [jget] at haid
        | s v =>
          simp only [jget] at haid
          cases haid
          simp only [itemArxivNonempty, bne_iff_ne] at hit
          intro he
          exact hit (by rw [he])
    simp only [parseItem] at h
    split at h
    · cases h
    · rename_i aid ha0
      have haidne := hane aid ha0
      split at h
      · split at h
        · cases h
        · rename_i t0 ht0
          split at h
          · rename_i v1 hl1
            cases h
            exact ⟨v1, rfl, lookup_val_ne m hm _ v1 hl1⟩
          · rename_i hl1
            split at h
            · rename_i v2 hl2
              cases h
              exact ⟨v2, rfl, lookup_val_ne m hm _ v2 hl2⟩
            · cases h
              exact ⟨aid, rfl, haidne⟩
      · cases h
        exact ⟨aid, rfl, haidne⟩

theorem parseItems_arxiv_ne (o : Option String) (m : List (String × String))
    (hm : mappingValsNonempty m = true) :
    ∀ (items : List JItem) (idx : Nat) (segs : List Segment),
      items.all itemArxivNonempty = true →
      parseItems o m idx items = .ok segs →
      ∀ seg ∈ segs, ∃ x, seg.arxiv_id = some x ∧ x ≠ "" := by
  intro items
  induction items with
  | nil =>
    intro idx segs _ h seg hseg
    simp only [parseItems] at h
    cases h
    simp at hseg
  | cons it rest ih =>
    intro idx segs hall h seg hseg
    simp only [List.all_cons, Bool.and_eq_true] at hall
    simp only [parseItems] at h
    cases hit : parseItem o m idx it <;> rw [hit] at h
    · cases h
    · cases hrest : parseItems o m (idx + 1) rest <;> rw [hrest] at h
      · cases h
      · cases h
        rcases List.mem_cons.mp hseg with rfl | hmem
        · exact parseItem_arxiv_ne o m hm idx it hall.1 _ hit
        · exact ih (idx + 1) _ hall.2 hrest seg hmem

theorem resolveMarkdownId_eq_spec (f : String) (o : Option String)
    (m : List (String × String)) (n : Nat) :
    resolveMarkdownId f o m n = specMarkdownId f o m n := by
  cases o with
  | none => rfl
  | some s =>
    by_cases hs : s = "" <;>
      simp [resolveMarkdownId, pyOrStr, specMarkdownId, hs, markdownAutoId,
        specMarkdownAuto]

theorem processFrom_allfail (dir : String) (dc : Option String) :
    ∀ (segs : List Segment) (idx : Nat),
      processFrom dir dc (fun _ => false) idx segs = ⟨0, segs.length, []⟩ := by
  intro segs
  induction segs with
  | nil => intro idx; rfl
  | cons s rest ih => intro idx; simp [processFrom, ih (idx + 1)]

theorem runMain_ok (path : String) (file : FileRead) (ff mf : Option String)
    (m : List (String × String)) (dc : Option String) (dir : String)
    (ok : Nat → Bool) (now : Nat) (refs : List VoiceReference)
    (segs : List Segment)
    (h1 : load_voice_references ff mf = .ok refs)
    (h2 : parse_podcast_script path file none m now = .ok segs) :
    runMain path file ff mf m dc dir ok now =
      .ok (processSegments dir dc ok segs,
        runExitCode (processSegments dir dc ok segs)) := by
  simp only [runMain, bind, Except.bind, h1, h2]

/-! ### Claims -/

/-- Claim C1, counterexample.  The claim says every accepted script file
yields at least one segment and that an empty script file aborts the run.
Neither holds: the JSON text `[]` parses to an empty segment list with no
abort, and an empty file takes the markdown path and yields one segment
(with empty script text) instead of aborting. -/
theorem C1_counterexample :
    parse_podcast_script "script.json" (.readAs (.jsonArray [])) none [] 0 =
      .ok ([] : List Segment) ∧
    parse_podcast_script "script.md" (.readAs (.nonJson "")) none [] 0 =
      .ok [⟨some "script", some "", some "podcast_0", some ""⟩] :=
  ⟨by decide, by decide⟩

/-- Claim C1, amended: a nonexistent or unreadable script file is a fatal
error that aborts before synthesis; a successfully read non-JSON file
(including an empty one) yields exactly one segment without aborting; a
JSON-array file yields exactly one segment per element, so the parser
returns an empty list exactly for the empty JSON array `[]`. -/
theorem C1_amended (path : String) (o : Option String)
    (m : List (String × String)) (now : Nat) (text : String)
    (items : List JItem) (segs : List Segment) :
    parse_podcast_script path .missing o m now = .error () ∧
    parse_podcast_script path .unreadable o m now = .error () ∧
    parse_podcast_script path (.readAs (.nonJson text)) o m now =
      .ok [markdownSegment path text o m now] ∧
    (parse_podcast_script path (.readAs (.jsonArray items)) o m now = .ok segs →
      segs.length = items.length) :=
  ⟨rfl, rfl, rfl, fun h => parseItems_length o m items 0 segs h⟩

/-- Claim C1, witness for the amended theorem at concrete inputs. -/
theorem C1_witness :
    parse_podcast_script "w.md" .missing none [] 3 = .error () ∧
    parse_podcast_script "w.md" .unreadable none [] 3 = .error () ∧
    parse_podcast_script "w.md" (.readAs (.nonJson "t")) none [] 3 =
      .ok [markdownSegment "w.md" "t" none [] 3] ∧
    ([(⟨some "segment_0", some "a", some "unknown_0", some ""⟩ : Segment)]).length =
      [JItem.str "a"].length := by
  have h := C1_amended "w.md" none [] 3 "t" [JItem.str "a"]
    [⟨some "segment_0", some "a", some "unknown_0", some ""⟩]
  exact ⟨h.1, h.2.1, h.2.2.1, h.2.2.2 (by decide)⟩

/-- Claim C2, counterexample.  The claim says no segment reaches the batch
loop with an empty `arxiv_id`.  But an object element whose `arxiv_id`
field is explicitly the empty string passes through unchanged (the
fallback only applies to an absent field, and `""` carries no `unknown_` /
`segment_` marker), so the parser hands the loop a segment with
`arxiv_id = ""` (whose output file would be `.mp3`). -/
theorem C2_counterexample :
    parse_podcast_script "script.json"
      (.readAs (.jsonArray [.obj none (some (.s "x")) (some (.s "")) none]))
      none [] 0 =
      .ok [⟨some "segment_0", some "x", some "", some ""⟩] := by
  decide

/-- Claim C2, amended: provided every `arxiv_id` field explicitly present
in the script is a non-empty string and every value of the id mapping is
non-empty, every segment the parser returns carries a non-empty string
`arxiv_id` (absent fields fall back to `unknown_<idx>`, the mapping, the
override, a filename timestamp or `podcast_<unix-time>`, all
non-empty). -/
theorem C2_amended (path : String) (file : FileRead) (o : Option String)
    (m : List (String × String)) (now : Nat) (segs : List Segment)
    (hm : mappingValsNonempty m = true)
    (hf : fileArxivOk file = true)
    (h : parse_podcast_script path file o m now = .ok segs) :
    ∀ seg ∈ segs, ∃ x, seg.arxiv_id = some x ∧ x ≠ "" := by
  cases file with
  | missing => cases h
  | unreadable => cases h
  | readAs cont =>
    cases cont with
    | jsonArray items =>
      exact parseItems_arxiv_ne o m hm items 0 segs
        (by simpa [fileArxivOk] using hf) h
    | nonJson text =>
      cases h
      intro seg hseg
      rcases List.mem_cons.mp hseg with rfl | hmem
      · refine ⟨resolveMarkdownId (basename path) o m now, rfl, ?_⟩
        exact pyOrStr_ne o _ (markdownAutoId_ne _ m now hm)
      · simp at hmem

/-- Claim C2, witness for the amended theorem at a concrete input. -/
theorem C2_witness :
    ∃ x, (markdownSegment "w.md" "t" none [] 3).arxiv_id = some x ∧ x ≠ "" :=
  C2_amended "w.md" (.readAs (.nonJson "t")) none [] 3
    [markdownSegment "w.md" "t" none [] 3] (by decide) (by decide) (by decide)
    _ (List.mem_cons_self _ _)

/-- Claim C3, counterexample.  The claim says every object element has its
`arxiv_id` extracted with the default `override or unknown_<index>`.  But
an object carrying an explicit `null` `arxiv_id` makes `.startswith` run
on Python `None`, the `AttributeError` reaches the outer handler, and the
whole run aborts instead of extracting anything. -/
theorem C3_counterexample :
    parse_podcast_script "script.json"
      (.readAs (.jsonArray [.obj none none (some .null) none])) none [] 0 =
      .error () := by
  decide

/-- Claim C3, amended: for every object element whose tracked fields,
when present, are strings, the parser extracts `title` (default
`segment_<index>`), `script` (default `""`, a warning but no failure),
`arxiv_id` (default: override or `unknown_<index>`) and `channel_id`
(default `""`); and exactly when the resolved `arxiv_id` starts with
`unknown_` or `segment_`, it reconciles it first by the sanitized-title
key (spaces to underscores, truncated to 50 characters) against the
mapping, else by the positional key `paper_<index>`, first match winning
and no match leaving the default unchanged (`specObjResolveId` is that
spec-side description verbatim). -/
theorem C3_amended (o : Option String) (m : List (String × String))
    (idx : Nat) (t s a c : Option String) :
    parseItem o m idx
      (.obj (t.map JVal.s) (s.map JVal.s) (a.map JVal.s) (c.map JVal.s)) =
      .ok ⟨some (t.getD ("segment_" ++ toString idx)), some (s.getD ""),
           some (specObjResolveId m idx (t.getD ("segment_" ++ toString idx))
             (a.getD (pyOrStr o ("unknown_" ++ toString idx)))),
           some (c.getD "")⟩ :=
  parseItem_obj_eq o m idx t s a c

/-- Claim C4, counterexample.  The claim says segments parsed from a
well-formed array of objects never carry null fields.  But an explicit
JSON `null` in a field the defaults do not touch is passed through: this
object yields a segment whose `title` is Python `None`. -/
theorem C4_counterexample :
    parse_podcast_script "script.json"
      (.readAs (.jsonArray [.obj (some .null) (some (.s "x"))
        (some (.s "2310.00001")) none])) none [] 0 =
      .ok [⟨none, some "x", some "2310.00001", some ""⟩] := by
  decide

/-- Claim C4, amended: for a JSON array of objects all of whose present
fields are strings, the parser returns exactly one segment per element
with every field a string (defaults substituted for absent fields); and
for a JSON array of N strings it returns N segments, the `i`-th having
title `segment_<i>`, script the `i`-th string and empty channel id. -/
theorem C4_amended :
    (∀ (path : String) (o : Option String) (m : List (String × String))
        (now : Nat) (items : List JItem), items.all strObjItem = true →
      ∃ segs, parse_podcast_script path (.readAs (.jsonArray items)) o m now =
          .ok segs ∧
        segs.length = items.length ∧
        ∀ seg ∈ segs, seg.title.isSome ∧ seg.script.isSome ∧
          seg.arxiv_id.isSome ∧ seg.channel_id.isSome) ∧
    (∀ (path : String) (o : Option String) (m : List (String × String))
        (now : Nat) (ss : List String),
      parse_podcast_script path (.readAs (.jsonArray (ss.map JItem.str)))
          o m now =
        .ok ((List.enumFrom 0 ss).map fun p =>
          (⟨some ("segment_" ++ toString p.1), some p.2,
            some (strBranchId o m p.1), some ""⟩ : Segment))) :=
  ⟨fun _ o m _ items hall => parseItems_strObj o m items 0 hall,
   fun _ o m _ ss => parseItems_str_map o m ss 0⟩

/-- Claim C4, witness for the amended theorem at a concrete input. -/
theorem C4_witness :
    ∃ segs, parse_podcast_script "w.json"
        (.readAs (.jsonArray [JItem.obj none (some (.s "hello")) none none]))
        none [] 0 = .ok segs ∧
      segs.length = [JItem.obj none (some (.s "hello")) none none].length ∧
      ∀ seg ∈ segs, seg.title.isSome ∧ seg.script.isSome ∧
        seg.arxiv_id.isSome ∧ seg.channel_id.isSome :=
  C4_amended.1 "w.json" none [] 0
    [JItem.obj none (some (.s "hello")) none none] (by decide)

/-- Claim C5 (confirmed): on the markdown path the single segment's id is
resolved in strict priority order - caller override if present (truthy),
else the mapping's `paper_0` entry, else a `YYYY-MM-DD HH-MM-SS`
timestamp (space- or dash-separated) found in the filename and normalized
to all dashes, else `podcast_<unix-time>` (`specMarkdownId` is that
priority order verbatim); and the concrete filename
`notes_2025-10-05 14-30-00.md` with no mapping and no override resolves
to `2025-10-05-14-30-00`. -/
theorem C5_markdown_priority :
    (∀ (path text : String) (o : Option String)
        (m : List (String × String)) (now : Nat),
      parse_podcast_script path (.readAs (.nonJson text)) o m now =
        .ok [⟨some (splitextStem (basename path)), some text,
             some (specMarkdownId (basename path) o m now), some ""⟩]) ∧
    parse_podcast_script "notes_2025-10-05 14-30-00.md"
        (.readAs (.nonJson "dialogue")) none [] 777 =
      .ok [⟨some "notes_2025-10-05 14-30-00", some "dialogue",
           some "2025-10-05-14-30-00", some ""⟩] := by
  constructor
  · intro path text o m now
    simp only [parse_podcast_script, markdownSegment, resolveMarkdownId_eq_spec]
  · decide

/-- Claim C6 (confirmed): a JSON array containing an element that is
neither an object nor a string is a fatal parse error wherever it occurs:
the whole parse aborts (`sys.exit(1)`) and no partial segment list is
returned. -/
theorem C6_bad_element_fatal (path : String) (o : Option String)
    (m : List (String × String)) (now : Nat) (pre post : List JItem) :
    parse_podcast_script path
      (.readAs (.jsonArray (pre ++ JItem.other :: post))) o m now =
      .error () :=
  parseItems_other o m pre 0 post

/-- Claim C7, counterexample.  The claim says the loader reads raw audio
bytes and base64-encodes them itself.  It does not: it splices the text
file's content verbatim after the data-URI prefix.  Feeding the text
`!!!` produces an audio field whose suffix is `!!!`, which is not the
base64 encoding of any byte sequence (every base64 encoding has length
divisible by 4). -/
theorem C7_counterexample :
    load_voice_references (some "!!!") none =
      .ok [⟨"data:audio/mpeg;base64,!!!", femaleTranscript⟩] ∧
    ¬ ∃ bytes : List Nat,
      "data:audio/mpeg;base64," ++ String.mk (base64Encode bytes) =
        "data:audio/mpeg;base64,!!!" := by
  constructor
  · decide
  · rintro ⟨bytes, h⟩
    have hd := congrArg String.data h
    rw [String.data_append] at hd
    have hlen := congrArg List.length hd
    rw [List.length_append] at hlen
    have h23 : ("data:audio/mpeg;base64,".data).length = 23 := by decide
    have h26 : ("data:audio/mpeg;base64,!!!".data).length = 26 := by decide
    have hmk : (String.mk (base64Encode bytes)).data.length =
        (base64Encode bytes).length := rfl
    have hb : (base64Encode bytes).length % 4 = 0 := base64Encode_length bytes
    omega

/-- Claim C7, amended: the loader reads each voice-sample source as
already-encoded base64 TEXT, wraps the stripped text verbatim as a
data-URI audio field paired with the fixed transcript for that sample
(female first), skips a missing sample file, and aborts the run when both
are missing (before any synthesis, since `main` loads references before
parsing or synthesizing). -/
theorem C7_amended (ff mf : Option String) :
    load_voice_references ff mf =
      match ff, mf with
      | none, none => .error ()
      | some fc, none =>
        .ok [⟨"data:audio/mpeg;base64," ++ pyStrip fc, femaleTranscript⟩]
      | none, some mc =>
        .ok [⟨"data:audio/mpeg;base64," ++ pyStrip mc, maleTranscript⟩]
      | some fc, some mc =>
        .ok [⟨"data:audio/mpeg;base64," ++ pyStrip fc, femaleTranscript⟩,
             ⟨"data:audio/mpeg;base64," ++ pyStrip mc, maleTranscript⟩] := by
  cases ff <;> cases mf <;> rfl

/-- Claim C8 (confirmed): for every run that completes the batch loop,
the process exit code is non-zero if and only if the failed count is
positive, and zero if and only if no segment failed - independent of the
success count. -/
theorem C8_exit_iff (path : String) (file : FileRead) (ff mf : Option String)
    (m : List (String × String)) (dc : Option String) (dir : String)
    (ok : Nat → Bool) (now : Nat) (r : RunReport) (code : Nat)
    (h : runMain path file ff mf m dc dir ok now = .ok (r, code)) :
    (code ≠ 0 ↔ r.failed > 0) ∧ (code = 0 ↔ r.failed = 0) := by
  simp only [runMain, bind, Except.bind] at h
  cases hl : load_voice_references ff mf <;> rw [hl] at h
  · cases h
  · cases hp : parse_podcast_script path file none m now <;> rw [hp] at h
    · cases h
    · simp only [Except.ok.injEq, Prod.mk.injEq] at h
      obtain ⟨h1, h2⟩ := h
      rw [h1] at h2
      subst h2
      by_cases hf : r.failed > 0 <;> simp [runExitCode, hf] <;> omega

/-- Claim C8, witness at a concrete successful run. -/
theorem C8_witness :
    ((0 : Nat) ≠ 0 ↔
      (⟨1, 0, [⟨"out/podcast_5.mp3", some "podcast_5", none⟩]⟩ :
        RunReport).failed > 0) ∧
    ((0 : Nat) = 0 ↔
      (⟨1, 0, [⟨"out/podcast_5.mp3", some "podcast_5", none⟩]⟩ :
        RunReport).failed = 0) :=
  C8_exit_iff "p.md" (.readAs (.nonJson "hi")) (some "A") none [] none "out"
    (fun _ => true) 5 _ _ (by decide)

/-- Claim C9 (confirmed): a synthesis/write failure of one segment is
counted and the loop continues with the remaining segments (no retry, no
abort); an all-failure run still yields the report `success = 0`,
`failed = N`, empty files; and every run that passes startup produces the
report and only then the exit code, whatever the per-segment outcomes. -/
theorem C9_failure_handling :
    (∀ (dir : String) (dc : Option String) (ok : Nat → Bool) (idx : Nat)
        (seg : Segment) (rest : List Segment), ok idx = false →
      processFrom dir dc ok idx (seg :: rest) =
        ⟨(processFrom dir dc ok (idx + 1) rest).success,
         (processFrom dir dc ok (idx + 1) rest).failed + 1,
         (processFrom dir dc ok (idx + 1) rest).files⟩) ∧
    (∀ (dir : String) (dc : Option String) (segs : List Segment),
      processSegments dir dc (fun _ => false) segs = ⟨0, segs.length, []⟩) ∧
    (∀ (path : String) (file : FileRead) (ff mf : Option String)
        (m : List (String × String)) (dc : Option String) (dir : String)
        (ok : Nat → Bool) (now : Nat) (refs : List VoiceReference)
        (segs : List Segment),
      load_voice_references ff mf = .ok refs →
      parse_podcast_script path file none m now = .ok segs →
      runMain path file ff mf m dc dir ok now =
        .ok (processSegments dir dc ok segs,
          runExitCode (processSegments dir dc ok segs))) := by
  refine ⟨?_, ?_, ?_⟩
  · intro dir dc ok idx seg rest hfail
    simp [processFrom, hfail]
  · intro dir dc segs
    exact processFrom_allfail dir dc segs 0
  · intro path file ff mf m dc dir ok now refs segs h1 h2
    exact runMain_ok path file ff mf m dc dir ok now refs segs h1 h2

/-- Claim C9, witness at concrete inputs. -/
theorem C9_witness :
    (processFrom "out" none (fun _ => false) 0
        [(⟨some "T", some "x", some "id1", some ""⟩ : Segment)] =
      ⟨(processFrom "out" none (fun _ => false) 1 []).success,
       (processFrom "out" none (fun _ => false) 1 []).failed + 1,
       (processFrom "out" none (fun _ => false) 1 []).files⟩) ∧
    (processSegments "out" none (fun _ => false)
        [(⟨some "T", some "x", some "id1", some ""⟩ : Segment)] =
      ⟨0, 1, []⟩) ∧
    (runMain "p.md" (.readAs (.nonJson "hi")) (some "A") none [] none "out"
        (fun _ => false) 5 =
      .ok (processSegments "out" none (fun _ => false)
             [markdownSegment "p.md" "hi" none [] 5],
           runExitCode (processSegments "out" none (fun _ => false)
             [markdownSegment "p.md" "hi" none [] 5]))) := by
  refine ⟨C9_failure_handling.1 "out" none (fun _ => false) 0
      ⟨some "T", some "x", some "id1", some ""⟩ [] rfl,
    C9_failure_handling.2.1 "out" none
      [⟨some "T", some "x", some "id1", some ""⟩],
    C9_failure_handling.2.2 "p.md" (.readAs (.nonJson "hi")) (some "A") none
      [] none "out" (fun _ => false) 5
      [⟨"data:audio/mpeg;base64,A", femaleTranscript⟩]
      [markdownSegment "p.md" "hi" none [] 5] (by decide) (by decide)⟩

/-- Claim C10 (confirmed): for every run reaching the report-writing
step, the report is internally consistent: `success` equals the length
of `files`, `success + failed` equals the number of parsed segments, and
`files` records exactly the successful segments, once each, in segment
order. -/
theorem C10_report_consistent (dir : String) (dc : Option String)
    (ok : Nat → Bool) (segs : List Segment) :
    (processSegments dir dc ok segs).success =
        (processSegments dir dc ok segs).files.length ∧
    (processSegments dir dc ok segs).success +
        (processSegments dir dc ok segs).failed = segs.length ∧
    (processSegments dir dc ok segs).files =
      ((List.enumFrom 0 segs).filter fun p => ok p.1).map
        fun p => mkOutcome dir dc p.2 := by
  refine ⟨?_, processFrom_sum dir dc ok segs 0,
    processFrom_files dir dc ok segs 0⟩
  show (processFrom dir dc ok 0 segs).success =
    (processFrom dir dc ok 0 segs).files.length
  rw [processFrom_success dir dc ok segs 0, processFrom_files dir dc ok segs 0,
    List.length_map]

end Podcast
